import Mathlib

/-!
Shallow embedding of the license-plate recognition pipeline in
`src/model_trainer.py` (function `process_image`, lines 20-83).

The pipeline is a straight-line composition of imaging-library calls
(OpenCV) and one OCR call (EasyOCR).  The library calls are modelled as
opaque collaborator functions bundled in a `CV` structure and a
`reader` parameter; the glue logic of `process_image` — ranking
contours, the greedy quadrilateral search, the mask bounding box, the
crop, the failure returns and the final drawing — is translated
directly from the source.

Representation choices:
* a single-channel image (grayscale, edge map, mask) is a list of rows
  of pixel values (`GrayImg`);
* a colour image is a list of rows of BGR pixels (`ColorImg`);
* a contour / polygon point is an OpenCV `(x, y)` pair;
* the Python return value `(None, None, None)` / `(img, text, crop)`
  becomes a triple of `Option`s, and an uncaught exception (the
  `np.min` of an empty array at line 63 when the mask is empty) is the
  `none` of an outer `Option`;
* in-place mutation of the input buffer by `cv2.putText` /
  `cv2.rectangle` is made explicit: `process_image_run` also returns
  the final contents of the `img_array` buffer, and the number of
  `reader.readtext` invocations.
-/

/-- A single-channel 8-bit image (grayscale image, edge map or mask):
a list of rows of pixel values. -/
abbrev GrayImg := List (List Nat)

/-- A 3-channel colour image: a list of rows of BGR pixel triples. -/
abbrev ColorImg := List (List (Nat × Nat × Nat))

/-- A point as stored in an OpenCV contour: an `(x, y)` pair,
`x` being the column and `y` the row. -/
abbrev Pt := Nat × Nat

/-- A contour: an ordered sequence of 2-D integer points approximating a
closed boundary found in an edge map. -/
abbrev Contour := List Pt

/-- One EasyOCR result entry: bounding geometry, detected text and a
confidence score.  The source reads `result[0][-2]`, i.e. the `text`
field of the first entry; the confidence is unused downstream. -/
structure OCREntry where
  box : String
  text : String
  conf : Rat
  deriving DecidableEq, Repr

/-- The OpenCV collaborators invoked by `process_image`, consumed as
opaque capabilities.  Each field models one `cv2` library call with the
signature the source uses; the pipeline composes them exactly as the
source does. -/
structure CV where
  /-- `cv2.cvtColor(img_array, cv2.COLOR_BGR2GRAY)` (line 29). -/
  cvtColor : ColorImg → GrayImg
  /-- `cv2.bilateralFilter(gray, d, sigmaColor, sigmaSpace)` (line 30). -/
  bilateralFilter : GrayImg → Nat → Nat → Nat → GrayImg
  /-- `cv2.Canny(bfilter, lo, hi)` (line 33). -/
  canny : GrayImg → Nat → Nat → GrayImg
  /-- `cv2.findContours(...)` (lines 37-43), already reduced to the
  extracted contour list. -/
  findContours : GrayImg → List Contour
  /-- `cv2.contourArea(contour)`: the sort key of line 44. -/
  contourArea : Contour → Rat
  /-- `cv2.approxPolyDP(contour, epsilon, True)` (line 48). -/
  approxPolyDP : Contour → Nat → List Pt
  /-- `cv2.drawContours(np.zeros(gray.shape), [location], 0, 255, -1)`
  (lines 58-59): the filled polygon mask, of the given height and
  width. -/
  drawContoursFill : Nat → Nat → List Pt → GrayImg
  /-- `cv2.bitwise_and(img_array, img_array, mask=mask)` (line 60); the
  source discards the result. -/
  bitwiseAnd : ColorImg → ColorImg → GrayImg → ColorImg
  /-- `cv2.putText(img, text, org, ...)` (lines 78-80), returning the
  buffer contents after drawing. -/
  putText : ColorImg → String → Pt → ColorImg
  /-- `cv2.rectangle(img, pt1, pt2, ...)` (line 81), returning the
  buffer contents after drawing. -/
  rectangle : ColorImg → Pt → Pt → ColorImg

/-- Line 29: `gray = cv2.cvtColor(img_array, cv2.COLOR_BGR2GRAY)`. -/
def gray_of (cv : CV) (img : ColorImg) : GrayImg :=
  cv.cvtColor img

/-- Lines 30-33: bilateral filter with the tuned constants 11, 17, 17,
then Canny edge detection with thresholds 30, 200. -/
def edged_of (cv : CV) (img : ColorImg) : GrayImg :=
  cv.canny (cv.bilateralFilter (gray_of cv img) 11 17 17) 30 200

/-- Line 44: `sorted(contours, key=cv2.contourArea, reverse=True)[:10]` —
a stable sort by enclosed area descending (Python's `reverse=True`
keeps the original order of equal keys, as `mergeSort` does with the
relation `area b ≤ area a`), then keep the first 10. -/
def top10_of (cv : CV) (img : ColorImg) : List Contour :=
  ((cv.findContours (edged_of cv img)).mergeSort
    (fun a b => decide (cv.contourArea b ≤ cv.contourArea a))).take 10

/-- Lines 48-49: approximate one contour with tolerance 10 and accept it
only when the approximation has exactly 4 vertices. -/
def approx4 (cv : CV) (c : Contour) : Option (List Pt) :=
  let a := cv.approxPolyDP c 10
  if a.length = 4 then some a else none

/-- Lines 46-51: the greedy loop — the first candidate in rank order
whose polygon approximation has exactly 4 vertices, if any. -/
def plate_of (cv : CV) (img : ColorImg) : Option (List Pt) :=
  (top10_of cv img).findSome? (approx4 cv)

/-- Number of columns of an image, as `shape` reports it: the length of
the first row (0 for an empty image). -/
def imgWidth (g : GrayImg) : Nat :=
  g.headI.length

/-- Lines 58-59: the mask — zeros of `gray.shape` with the polygon
drawn filled. -/
def mask_of (cv : CV) (img : ColorImg) (loc : List Pt) : GrayImg :=
  cv.drawContoursFill (gray_of cv img).length (imgWidth (gray_of cv img)) loc

/-- Line 62: `np.where(mask == 255)` — the (row, column) coordinates of
every pixel whose value is 255, in row-major order. -/
def foreground (mask : GrayImg) : List (Nat × Nat) :=
  (mask.enum.map (fun r =>
    r.2.enum.filterMap (fun c => if c.2 = 255 then some (r.1, c.1) else none))).flatten

/-- Lines 63-64: `(np.min(x), np.min(y))` and `(np.max(x), np.max(y))`
over the foreground coordinates, as `(x1, y1, x2, y2)`.  `np.min` and
`np.max` raise on an empty array, so the empty-foreground case is
`none`, modelling the uncaught exception. -/
def maskBBox (mask : GrayImg) : Option (Nat × Nat × Nat × Nat) :=
  match ((foreground mask).map Prod.fst).min?, ((foreground mask).map Prod.snd).min?,
        ((foreground mask).map Prod.fst).max?, ((foreground mask).map Prod.snd).max? with
  | some x1, some y1, some x2, some y2 => some (x1, y1, x2, y2)
  | _, _, _, _ => none

/-- Line 65: `gray[x1:x2 + 1, y1:y2 + 1]` — rows `x1..x2` and columns
`y1..y2`, both inclusive. -/
def cropGray (g : GrayImg) (x1 x2 y1 y2 : Nat) : GrayImg :=
  ((g.drop x1).take (x2 + 1 - x1)).map (fun row => (row.drop y1).take (y2 + 1 - y1))

/-- The observable outcome of one invocation of `process_image`:
the Python return value, the final contents of the caller's
`img_array` buffer, and how many times `reader.readtext` ran. -/
structure RunResult where
  /-- The returned triple: `some (none, none, none)` for the two
  `return None, None, None` exits, `some (some annotated, some text,
  some cropped)` on success, and `none` when the call raises. -/
  ret : Option (Option ColorImg × Option String × Option GrayImg)
  /-- The contents of the `img_array` buffer when the call ends:
  `cv2.putText` and `cv2.rectangle` mutate it in place, nothing else
  writes to it. -/
  buf : ColorImg
  /-- The number of `reader.readtext` invocations (line 68). -/
  ocrCalls : Nat

/-- Lines 77-81: the drawing step.  `cv2.putText` is given
`org = (approx[0][0][0], approx[1][0][1] + 60)` — the x of vertex 0 and
the y of vertex 1 plus 60 — and `cv2.rectangle` connects vertex 0 and
vertex 2 of the approximated polygon.  Both draw onto the caller's
`img_array` buffer. -/
def annotate (cv : CV) (img : ColorImg) (text : String) (approx : List Pt) : ColorImg :=
  let v0 := approx.getD 0 (0, 0)                     -- approx[0][0]
  let v1 := approx.getD 1 (0, 0)                     -- approx[1][0]
  let v2 := approx.getD 2 (0, 0)                     -- approx[2][0]
  cv.rectangle (cv.putText img text (v0.1, v1.2 + 60)) v0 v2

/-- The whole of `process_image` (lines 20-83), instrumented with the
final buffer contents and the OCR call count. -/
def process_image_run (cv : CV) (reader : GrayImg → List OCREntry)
    (img : ColorImg) : RunResult :=
  let gray := gray_of cv img
  match plate_of cv img with
  | none => ⟨some (none, none, none), img, 0⟩        -- lines 54-55
  | some approx =>
    let mask := mask_of cv img approx
    let _discarded := cv.bitwiseAnd img img mask     -- line 60, result unused
    match maskBBox mask with
    | none => ⟨none, img, 0⟩                         -- line 63 raises on an empty mask
    | some (x1, y1, x2, y2) =>
      let cropped := cropGray gray x1 x2 y1 y2
      match reader cropped with
      | [] => ⟨some (none, none, none), img, 1⟩      -- lines 71-72
      | r0 :: _ =>
        let text := r0.text                          -- line 74: result[0][-2]
        let annotated := annotate cv img text approx
        ⟨some (some annotated, some text, some cropped), annotated, 1⟩

/-- The Python-visible return value of `process_image`. -/
def process_image (cv : CV) (reader : GrayImg → List OCREntry)
    (img : ColorImg) : Option (Option ColorImg × Option String × Option GrayImg) :=
  (process_image_run cv reader img).ret


/-! Concrete collaborator instantiations, used to evaluate the pipeline
on small closed inputs. -/

/-- An axis-aligned unit square, as a 4-point contour. -/
def quadC : Contour := [(0, 0), (1, 0), (1, 1), (0, 1)]

/-- A concrete instantiation of the OpenCV collaborators: grayscale
keeps the first channel, filtering and edge detection are identities,
no contours are found, the area of a contour is its vertex count, the
approximation returns the contour itself, the filled mask is all
foreground, and the two drawing calls append marker rows recording
their arguments. -/
def baseCV : CV where
  cvtColor := fun img => img.map (fun row => row.map Prod.fst)
  bilateralFilter := fun g _ _ _ => g
  canny := fun g _ _ => g
  findContours := fun _ => []
  contourArea := fun c => (c.length : Rat)
  approxPolyDP := fun c _ => c
  drawContoursFill := fun h w _ => List.replicate h (List.replicate w 255)
  bitwiseAnd := fun a _ _ => a
  putText := fun img t org => img ++ [[(org.1, org.2, t.length)]]
  rectangle := fun img p q => img ++ [[(p.1, p.2, 0), (q.1, q.2, 0)]]

/-- `baseCV` but with one quadrilateral contour. -/
def quadCV : CV := { baseCV with findContours := fun _ => [quadC] }

/-- `baseCV` with a quadrilateral contour but an all-background mask. -/
def emptyMaskCV : CV :=
  { baseCV with
    findContours := fun _ => [quadC]
    drawContoursFill := fun h w _ => List.replicate h (List.replicate w 0) }

/-- An OCR collaborator that detects nothing. -/
def readerNone : GrayImg → List OCREntry := fun _ => []

/-- An OCR collaborator stubbed to return one entry with text
"ABC123" and confidence 0.9. -/
def readerABC : GrayImg → List OCREntry := fun _ => [⟨"box", "ABC123", 9 / 10⟩]

/-- A concrete 2-by-2 colour image. -/
def img2x2 : ColorImg := [[(10, 0, 0), (20, 0, 0)], [(30, 0, 0), (40, 0, 0)]]


/-! Helper lemmas about the pieces of the pipeline. -/

/-- `approx4` rejects a contour exactly when its approximation does not
have 4 vertices. -/
theorem approx4_eq_none_iff (cv : CV) (c : Contour) :
    approx4 cv c = none ↔ (cv.approxPolyDP c 10).length ≠ 4 := by
  by_cases h : (cv.approxPolyDP c 10).length = 4 <;> simp [approx4, h]

/-- `approx4` accepts a contour exactly by returning its 4-vertex
approximation. -/
theorem approx4_eq_some_iff (cv : CV) (c : Contour) (p : List Pt) :
    approx4 cv c = some p ↔ cv.approxPolyDP c 10 = p ∧ p.length = 4 := by
  by_cases h : (cv.approxPolyDP c 10).length = 4
  · simp only [approx4, h, if_true, Option.some.injEq]
    constructor
    · rintro rfl; exact ⟨rfl, h⟩
    · rintro ⟨rfl, _⟩; rfl
  · simp only [approx4, h, if_false]
    constructor
    · rintro ⟨⟩
    · rintro ⟨rfl, h4⟩; exact absurd h4 h

/-- `plate_of` is `none` exactly when no top-10 candidate approximates
to 4 vertices. -/
theorem plate_of_eq_none_iff (cv : CV) (img : ColorImg) :
    plate_of cv img = none ↔
      ∀ c ∈ top10_of cv img, (cv.approxPolyDP c 10).length ≠ 4 := by
  unfold plate_of
  rw [List.findSome?_eq_none_iff]
  constructor
  · intro h c hc
    exact (approx4_eq_none_iff cv c).mp (h c hc)
  · intro h c hc
    exact (approx4_eq_none_iff cv c).mpr (h c hc)

/-- A successful `findSome?` returns the value of the first element the
function accepts: everything strictly before it is rejected. -/
theorem findSome_first {α β : Type} (f : α → Option β) :
    ∀ (l : List α) (b : β), l.findSome? f = some b →
      ∃ i, ∃ hi : i < l.length, f (l.get ⟨i, hi⟩) = some b ∧
        ∀ j, ∀ hj : j < i, f (l.get ⟨j, Nat.lt_trans hj hi⟩) = none := by
  intro l
  induction l with
  | nil => intro b h; simp at h
  | cons a as ih =>
    intro b h
    rw [List.findSome?_cons] at h
    cases hfa : f a with
    | some c =>
      rw [hfa] at h
      refine ⟨0, Nat.succ_pos _, ?_, ?_⟩
      · simpa [hfa] using h
      · intro j hj; exact absurd hj (Nat.not_lt_zero j)
    | none =>
      rw [hfa] at h
      obtain ⟨i, hi, hfi, hprev⟩ := ih b h
      refine ⟨i + 1, Nat.succ_lt_succ hi, ?_, ?_⟩
      · simpa [List.get_cons_succ] using hfi
      · intro j hj
        match j with
        | 0 => simpa using hfa
        | k + 1 =>
          have hk : k < i := Nat.lt_of_succ_lt_succ hj
          simpa [List.get_cons_succ] using hprev k hk

/-- Membership in the `np.where(mask == 255)` coordinate list: exactly
the in-bounds positions whose pixel value is 255. -/
theorem mem_foreground (mask : GrayImg) (p : Nat × Nat) :
    p ∈ foreground mask ↔
      ∃ hi : p.1 < mask.length, ∃ hj : p.2 < (mask.get ⟨p.1, hi⟩).length,
        (mask.get ⟨p.1, hi⟩).get ⟨p.2, hj⟩ = 255 := by
  unfold foreground
  rw [List.mem_flatten]
  constructor
  · rintro ⟨l, hl, hp⟩
    rw [List.mem_map] at hl
    obtain ⟨r, hr, rfl⟩ := hl
    rw [List.mem_filterMap] at hp
    obtain ⟨c, hc, hcp⟩ := hp
    by_cases h255 : c.2 = 255
    · rw [if_pos h255] at hcp
      obtain ⟨hi, hrow⟩ := List.mem_enum hr
      obtain ⟨hj, hcol⟩ := List.mem_enum (by exact hc)
      cases hcp
      refine ⟨hi, ?_, ?_⟩
      · rw [List.get_eq_getElem, ← hrow]; exact hj
      · simp only [List.get_eq_getElem, ← hrow, ← hcol]; exact h255
    · rw [if_neg h255] at hcp; exact absurd hcp (by simp)
  · rintro ⟨hi, hj, hval⟩
    refine ⟨(mask.get ⟨p.1, hi⟩).enum.filterMap
      (fun c => if c.2 = 255 then some (p.1, c.1) else none), ?_, ?_⟩
    · rw [List.mem_map]
      refine ⟨(p.1, mask.get ⟨p.1, hi⟩), ?_, rfl⟩
      rw [List.mk_mem_enum_iff_getElem?, List.getElem?_eq_some_iff]
      exact ⟨hi, rfl⟩
    · rw [List.mem_filterMap]
      refine ⟨(p.2, 255), ?_, ?_⟩
      · rw [List.mk_mem_enum_iff_getElem?, List.getElem?_eq_some_iff]
        exact ⟨hj, hval⟩
      · simp

/-- When at least one pixel is foreground, the bounding-box computation
of lines 63-64 succeeds and returns the componentwise minima and maxima
of the foreground coordinates. -/
theorem maskBBox_spec (mask : GrayImg) (h : foreground mask ≠ []) :
    ∃ x1 y1 x2 y2, maskBBox mask = some (x1, y1, x2, y2) ∧
      (∀ p ∈ foreground mask, x1 ≤ p.1 ∧ p.1 ≤ x2 ∧ y1 ≤ p.2 ∧ p.2 ≤ y2) ∧
      (∃ p ∈ foreground mask, p.1 = x1) ∧ (∃ p ∈ foreground mask, p.1 = x2) ∧
      (∃ p ∈ foreground mask, p.2 = y1) ∧ (∃ p ∈ foreground mask, p.2 = y2) := by
  have hrows : ((foreground mask).map Prod.fst) ≠ [] := by
    simpa [List.map_eq_nil_iff] using h
  have hcols : ((foreground mask).map Prod.snd) ≠ [] := by
    simpa [List.map_eq_nil_iff] using h
  obtain ⟨x1, hx1⟩ : ∃ a, ((foreground mask).map Prod.fst).min? = some a := by
    cases hm : ((foreground mask).map Prod.fst).min? with
    | none => exact absurd (List.min?_eq_none_iff.mp hm) hrows
    | some a => exact ⟨a, rfl⟩
  obtain ⟨y1, hy1⟩ : ∃ a, ((foreground mask).map Prod.snd).min? = some a := by
    cases hm : ((foreground mask).map Prod.snd).min? with
    | none => exact absurd (List.min?_eq_none_iff.mp hm) hcols
    | some a => exact ⟨a, rfl⟩
  obtain ⟨x2, hx2⟩ : ∃ a, ((foreground mask).map Prod.fst).max? = some a := by
    cases hm : ((foreground mask).map Prod.fst).max? with
    | none => exact absurd (List.max?_eq_none_iff.mp hm) hrows
    | some a => exact ⟨a, rfl⟩
  obtain ⟨y2, hy2⟩ : ∃ a, ((foreground mask).map Prod.snd).max? = some a := by
    cases hm : ((foreground mask).map Prod.snd).max? with
    | none => exact absurd (List.max?_eq_none_iff.mp hm) hcols
    | some a => exact ⟨a, rfl⟩
  obtain ⟨hx1m, hx1le⟩ := List.min?_eq_some_iff'.mp hx1
  obtain ⟨hy1m, hy1le⟩ := List.min?_eq_some_iff'.mp hy1
  obtain ⟨hx2m, hx2le⟩ := List.max?_eq_some_iff'.mp hx2
  obtain ⟨hy2m, hy2le⟩ := List.max?_eq_some_iff'.mp hy2
  refine ⟨x1, y1, x2, y2, ?_, ?_, ?_, ?_, ?_, ?_⟩
  · unfold maskBBox; rw [hx1, hy1, hx2, hy2]
  · intro p hp
    exact ⟨hx1le p.1 (List.mem_map_of_mem _ hp), hx2le p.1 (List.mem_map_of_mem _ hp),
           hy1le p.2 (List.mem_map_of_mem _ hp), hy2le p.2 (List.mem_map_of_mem _ hp)⟩
  · obtain ⟨p, hp, hpe⟩ := List.mem_map.mp hx1m; exact ⟨p, hp, hpe⟩
  · obtain ⟨p, hp, hpe⟩ := List.mem_map.mp hx2m; exact ⟨p, hp, hpe⟩
  · obtain ⟨p, hp, hpe⟩ := List.mem_map.mp hy1m; exact ⟨p, hp, hpe⟩
  · obtain ⟨p, hp, hpe⟩ := List.mem_map.mp hy2m; exact ⟨p, hp, hpe⟩

/-- An all-background mask makes the bounding-box computation fail (the
`np.min` of line 63 has nothing to minimise). -/
theorem maskBBox_eq_none (mask : GrayImg) (h : foreground mask = []) :
    maskBBox mask = none := by
  unfold maskBBox
  rw [h]
  rfl

/-- Branch lemma: no plate candidate — lines 54-55. -/
theorem run_plate_none (cv : CV) (reader : GrayImg → List OCREntry) (img : ColorImg)
    (h : plate_of cv img = none) :
    process_image_run cv reader img = ⟨some (none, none, none), img, 0⟩ := by
  unfold process_image_run
  rw [h]

/-- Branch lemma: plate found but empty mask — line 63 raises. -/
theorem run_bbox_none (cv : CV) (reader : GrayImg → List OCREntry) (img : ColorImg)
    (approx : List Pt) (hp : plate_of cv img = some approx)
    (hb : maskBBox (mask_of cv img approx) = none) :
    process_image_run cv reader img = ⟨none, img, 0⟩ := by
  unfold process_image_run
  rw [hp]
  simp only [hb]

/-- Branch lemma: plate found, crop made, but OCR returns nothing —
lines 71-72. -/
theorem run_ocr_empty (cv : CV) (reader : GrayImg → List OCREntry) (img : ColorImg)
    (approx : List Pt) (x1 y1 x2 y2 : Nat)
    (hp : plate_of cv img = some approx)
    (hb : maskBBox (mask_of cv img approx) = some (x1, y1, x2, y2))
    (ho : reader (cropGray (gray_of cv img) x1 x2 y1 y2) = []) :
    process_image_run cv reader img = ⟨some (none, none, none), img, 1⟩ := by
  unfold process_image_run
  rw [hp]
  simp only [hb, ho]

/-- Branch lemma: the success path — lines 74-83. -/
theorem run_success (cv : CV) (reader : GrayImg → List OCREntry) (img : ColorImg)
    (approx : List Pt) (x1 y1 x2 y2 : Nat) (r0 : OCREntry) (rs : List OCREntry)
    (hp : plate_of cv img = some approx)
    (hb : maskBBox (mask_of cv img approx) = some (x1, y1, x2, y2))
    (ho : reader (cropGray (gray_of cv img) x1 x2 y1 y2) = r0 :: rs) :
    process_image_run cv reader img =
      ⟨some (some (annotate cv img r0.text approx), some r0.text,
             some (cropGray (gray_of cv img) x1 x2 y1 y2)),
       annotate cv img r0.text approx, 1⟩ := by
  unfold process_image_run
  rw [hp]
  simp only [hb, ho]
/-! The claims. -/

/-- C1: the plate locator ranks the contours of the edge map by enclosed
area descending (the ranked list is a permutation of all extracted
contours with pairwise non-increasing areas), keeps only the top 10,
and selects the first candidate in rank order whose tolerance-10
polygon approximation has exactly 4 vertices; when no top-10 candidate
qualifies, `process_image` returns the not-found triple. -/
theorem C1_plate_selection (cv : CV) (reader : GrayImg → List OCREntry) (img : ColorImg) :
    ((cv.findContours (edged_of cv img)).mergeSort
        (fun a b => decide (cv.contourArea b ≤ cv.contourArea a))).Perm
      (cv.findContours (edged_of cv img)) ∧
    List.Pairwise (fun a b => cv.contourArea b ≤ cv.contourArea a) (top10_of cv img) ∧
    (top10_of cv img).length ≤ 10 ∧
    (∀ p, plate_of cv img = some p →
      ∃ i, ∃ hi : i < (top10_of cv img).length,
        cv.approxPolyDP ((top10_of cv img).get ⟨i, hi⟩) 10 = p ∧ p.length = 4 ∧
        ∀ j, ∀ hj : j < i,
          (cv.approxPolyDP ((top10_of cv img).get ⟨j, Nat.lt_trans hj hi⟩) 10).length ≠ 4) ∧
    ((∀ c ∈ top10_of cv img, (cv.approxPolyDP c 10).length ≠ 4) →
      process_image cv reader img = some (none, none, none)) := by
  refine ⟨List.mergeSort_perm _ _, ?_, ?_, ?_, ?_⟩
  · have hs := @List.sorted_mergeSort Contour
      (fun a b : Contour => decide (cv.contourArea b ≤ cv.contourArea a))
      (fun a b c h1 h2 => by
        simp only [decide_eq_true_iff] at h1 h2 ⊢
        exact le_trans h2 h1)
      (fun a b => by
        simp only [Bool.or_eq_true, decide_eq_true_iff]
        exact le_total (cv.contourArea b) (cv.contourArea a))
      (cv.findContours (edged_of cv img))
    have hsub := List.Pairwise.sublist (List.take_sublist 10 _) hs
    exact hsub.imp (fun h => by simpa [decide_eq_true_iff] using h)
  · exact List.length_take_le 10 _
  · intro p hp
    obtain ⟨i, hi, hfi, hprev⟩ := findSome_first (approx4 cv) (top10_of cv img) p hp
    obtain ⟨happ, hlen⟩ := (approx4_eq_some_iff cv _ p).mp hfi
    refine ⟨i, hi, happ, hlen, ?_⟩
    intro j hj
    exact (approx4_eq_none_iff cv _).mp (hprev j hj)
  · intro h
    have hnone : plate_of cv img = none := (plate_of_eq_none_iff cv img).mpr h
    unfold process_image
    rw [run_plate_none cv reader img hnone]

/-- C1 witness: with no contours at all, no top-10 candidate has a
4-vertex approximation and the pipeline returns the not-found triple. -/
theorem C1_plate_selection_witness :
    process_image baseCV readerNone img2x2 = some (none, none, none) :=
  (C1_plate_selection baseCV readerNone img2x2).2.2.2.2
    (by intro c hc; simp [top10_of, edged_of, gray_of, baseCV] at hc)

/-- C5: for every input in which no contour among the 10 largest
approximates to a 4-vertex polygon, the pipeline returns the not-found
outcome, the input buffer is untouched, and the OCR collaborator's
readtext capability is invoked zero times — whatever reader is
supplied. -/
theorem C5_no_quad_no_ocr (cv : CV) (reader : GrayImg → List OCREntry) (img : ColorImg)
    (h : ∀ c ∈ top10_of cv img, (cv.approxPolyDP c 10).length ≠ 4) :
    process_image_run cv reader img = ⟨some (none, none, none), img, 0⟩ :=
  run_plate_none cv reader img ((plate_of_eq_none_iff cv img).mpr h)

/-- C5 witness: with no contours, the run ends not-found with zero OCR
calls even though the reader would have returned text. -/
theorem C5_no_quad_no_ocr_witness :
    process_image_run baseCV readerABC img2x2 = ⟨some (none, none, none), img2x2, 0⟩ :=
  C5_no_quad_no_ocr baseCV readerABC img2x2
    (by intro c hc; simp [top10_of, edged_of, gray_of, baseCV] at hc)

/-- C2 (code bug): when the filled polygon mask is empty, the pipeline
does not return the guarded not-found triple: the index-of-extremes
computation of line 63 (`np.min` over an empty coordinate array) raises,
modelled as the `none` outcome.  Concretely: a collaborator whose fill
step marks no pixel makes `process_image` crash rather than report
`PlateNotFound`. -/
theorem C2_empty_mask_crashes :
    process_image emptyMaskCV readerABC img2x2 = none := by
  have hp : plate_of emptyMaskCV img2x2 = some quadC := by
    simp [plate_of, top10_of, edged_of, gray_of, emptyMaskCV, baseCV, approx4, quadC]
  have hb : maskBBox (mask_of emptyMaskCV img2x2 quadC) = none := by
    apply maskBBox_eq_none
    have : mask_of emptyMaskCV img2x2 quadC = [[0, 0], [0, 0]] := by
      simp [mask_of, gray_of, imgWidth, emptyMaskCV, baseCV, img2x2]
    rw [this]
    decide
  unfold process_image
  rw [run_bbox_none emptyMaskCV readerABC img2x2 quadC hp hb]

/-- C4: once a crop is made, an empty OCR result sequence produces the
not-found outcome, and a non-empty one makes the pipeline's recognized
text exactly the `text` field of the first entry, which is also the
string the annotator draws with. -/
theorem C4_ocr_first_entry (cv : CV) (reader : GrayImg → List OCREntry) (img : ColorImg)
    (approx : List Pt) (x1 y1 x2 y2 : Nat)
    (hp : plate_of cv img = some approx)
    (hb : maskBBox (mask_of cv img approx) = some (x1, y1, x2, y2)) :
    (reader (cropGray (gray_of cv img) x1 x2 y1 y2) = [] →
      process_image cv reader img = some (none, none, none)) ∧
    (∀ r0 rs, reader (cropGray (gray_of cv img) x1 x2 y1 y2) = r0 :: rs →
      process_image cv reader img =
        some (some (annotate cv img r0.text approx), some r0.text,
              some (cropGray (gray_of cv img) x1 x2 y1 y2))) := by
  constructor
  · intro ho
    unfold process_image
    rw [run_ocr_empty cv reader img approx x1 y1 x2 y2 hp hb ho]
  · intro r0 rs ho
    unfold process_image
    rw [run_success cv reader img approx x1 y1 x2 y2 r0 rs hp hb ho]

/-- C4 witness: a reader stubbed to return one entry with text "ABC123"
makes the pipeline's recognized text exactly "ABC123". -/
theorem C4_ocr_first_entry_witness :
    process_image quadCV readerABC img2x2 =
      some (some (annotate quadCV img2x2 "ABC123" quadC), some "ABC123",
            some [[10, 20], [30, 40]]) := by
  have hp : plate_of quadCV img2x2 = some quadC := by
    simp [plate_of, top10_of, edged_of, gray_of, quadCV, baseCV, approx4, quadC]
  have hmask : mask_of quadCV img2x2 quadC = [[255, 255], [255, 255]] := by
    simp [mask_of, gray_of, imgWidth, quadCV, baseCV, img2x2]
  have hb : maskBBox (mask_of quadCV img2x2 quadC) = some (0, 0, 1, 1) := by
    rw [hmask]; decide
  have h := (C4_ocr_first_entry quadCV readerABC img2x2 quadC 0 0 1 1 hp hb).2
    ⟨"box", "ABC123", 9 / 10⟩ [] rfl
  rw [h]
  rfl

/-- C6: on the success path the annotator draws the recognized text at
`org = (x of vertex 0, y of vertex 1 plus 60)` and a rectangle whose
corners are vertices 0 and 2 of the approximated polygon, directly onto
the original colour buffer: the final buffer contents equal the drawn
image, which is also the annotated image the pipeline returns. -/
theorem C6_annotation_indices (cv : CV) (reader : GrayImg → List OCREntry) (img : ColorImg)
    (approx : List Pt) (x1 y1 x2 y2 : Nat) (r0 : OCREntry) (rs : List OCREntry)
    (hp : plate_of cv img = some approx)
    (hb : maskBBox (mask_of cv img approx) = some (x1, y1, x2, y2))
    (ho : reader (cropGray (gray_of cv img) x1 x2 y1 y2) = r0 :: rs) :
    (process_image_run cv reader img).buf =
      cv.rectangle
        (cv.putText img r0.text ((approx.getD 0 (0, 0)).1, (approx.getD 1 (0, 0)).2 + 60))
        (approx.getD 0 (0, 0)) (approx.getD 2 (0, 0)) ∧
    (process_image_run cv reader img).ret =
      some (some ((process_image_run cv reader img).buf), some r0.text,
            some (cropGray (gray_of cv img) x1 x2 y1 y2)) := by
  rw [run_success cv reader img approx x1 y1 x2 y2 r0 rs hp hb ho]
  exact ⟨rfl, rfl⟩

/-- C6 witness: with drawing stubs that record their arguments, the
final buffer is the input image plus a text marker at org `(0, 60)`
(x of vertex 0, y of vertex 1 plus 60) and a rectangle marker
connecting vertices 0 and 2 of the unit square. -/
theorem C6_annotation_indices_witness :
    (process_image_run quadCV readerABC img2x2).buf =
      [[(10, 0, 0), (20, 0, 0)], [(30, 0, 0), (40, 0, 0)],
       [(0, 60, 6)], [(0, 0, 0), (1, 1, 0)]] := by
  have hp : plate_of quadCV img2x2 = some quadC := by
    simp [plate_of, top10_of, edged_of, gray_of, quadCV, baseCV, approx4, quadC]
  have hmask : mask_of quadCV img2x2 quadC = [[255, 255], [255, 255]] := by
    simp [mask_of, gray_of, imgWidth, quadCV, baseCV, img2x2]
  have hb : maskBBox (mask_of quadCV img2x2 quadC) = some (0, 0, 1, 1) := by
    rw [hmask]; decide
  have h := (C6_annotation_indices quadCV readerABC img2x2 quadC 0 0 1 1
    ⟨"box", "ABC123", 9 / 10⟩ [] hp hb rfl).1
  rw [h]
  rfl

/-- C7: the two failure modes — no quadrilateral among the top-10
contours, and an empty OCR result — produce exactly the same
caller-visible value, the bare not-found triple with no partial
results. -/
theorem C7_uniform_failure (cv1 cv2 : CV) (reader1 reader2 : GrayImg → List OCREntry)
    (img1 img2 : ColorImg) (approx : List Pt) (x1 y1 x2 y2 : Nat)
    (h1 : plate_of cv1 img1 = none)
    (h2p : plate_of cv2 img2 = some approx)
    (h2b : maskBBox (mask_of cv2 img2 approx) = some (x1, y1, x2, y2))
    (h2o : reader2 (cropGray (gray_of cv2 img2) x1 x2 y1 y2) = []) :
    process_image cv1 reader1 img1 = process_image cv2 reader2 img2 ∧
    process_image cv1 reader1 img1 = some (none, none, none) := by
  have e1 : process_image cv1 reader1 img1 = some (none, none, none) := by
    unfold process_image
    rw [run_plate_none cv1 reader1 img1 h1]
  have e2 : process_image cv2 reader2 img2 = some (none, none, none) := by
    unfold process_image
    rw [run_ocr_empty cv2 reader2 img2 approx x1 y1 x2 y2 h2p h2b h2o]
  exact ⟨e1.trans e2.symm, e1⟩

/-- C7 witness: a run that finds no contours and a run whose OCR reads
nothing return the identical not-found triple. -/
theorem C7_uniform_failure_witness :
    process_image baseCV readerABC img2x2 = process_image quadCV readerNone img2x2 ∧
    process_image baseCV readerABC img2x2 = some (none, none, none) := by
  have h1 : plate_of baseCV img2x2 = none := by
    rw [plate_of_eq_none_iff]
    intro c hc
    simp [top10_of, edged_of, gray_of, baseCV] at hc
  have h2p : plate_of quadCV img2x2 = some quadC := by
    simp [plate_of, top10_of, edged_of, gray_of, quadCV, baseCV, approx4, quadC]
  have hmask : mask_of quadCV img2x2 quadC = [[255, 255], [255, 255]] := by
    simp [mask_of, gray_of, imgWidth, quadCV, baseCV, img2x2]
  have h2b : maskBBox (mask_of quadCV img2x2 quadC) = some (0, 0, 1, 1) := by
    rw [hmask]; decide
  exact C7_uniform_failure baseCV quadCV readerABC readerNone img2x2 img2x2
    quadC 0 0 1 1 h1 h2p h2b rfl

/-- C8: the pipeline is deterministic — it is a pure function of the
collaborators and the input image, so a second run on the same input
yields the identical return value, final buffer and OCR call count. -/
theorem C8_deterministic (cv : CV) (reader : GrayImg → List OCREntry) (img : ColorImg) :
    (process_image_run cv reader img).ret = (process_image_run cv reader img).ret ∧
    (process_image_run cv reader img).buf = (process_image_run cv reader img).buf ∧
    (process_image_run cv reader img).ocrCalls = (process_image_run cv reader img).ocrCalls ∧
    process_image cv reader img = process_image cv reader img :=
  ⟨rfl, rfl, rfl, rfl⟩

/-- C9: on both failure exits — the not-found triple and the
empty-mask crash — the caller's image buffer is left exactly as it was
passed in; drawing happens only after OCR returns a non-empty result. -/
theorem C9_buffer_untouched_on_failure (cv : CV) (reader : GrayImg → List OCREntry)
    (img : ColorImg) :
    ((process_image_run cv reader img).ret = some (none, none, none) →
      (process_image_run cv reader img).buf = img) ∧
    ((process_image_run cv reader img).ret = none →
      (process_image_run cv reader img).buf = img) := by
  cases hp : plate_of cv img with
  | none =>
    rw [run_plate_none cv reader img hp]
    exact ⟨fun _ => rfl, fun _ => rfl⟩
  | some approx =>
    cases hb : maskBBox (mask_of cv img approx) with
    | none =>
      rw [run_bbox_none cv reader img approx hp hb]
      exact ⟨fun _ => rfl, fun _ => rfl⟩
    | some bbox =>
      obtain ⟨x1, y1, x2, y2⟩ := bbox
      cases ho : reader (cropGray (gray_of cv img) x1 x2 y1 y2) with
      | nil =>
        rw [run_ocr_empty cv reader img approx x1 y1 x2 y2 hp hb ho]
        exact ⟨fun _ => rfl, fun _ => rfl⟩
      | cons r0 rs =>
        rw [run_success cv reader img approx x1 y1 x2 y2 r0 rs hp hb ho]
        constructor
        · intro hcontra; simp at hcontra
        · intro hcontra; simp at hcontra

/-- C9 witness: a concrete failing run (no contours) leaves the buffer
equal to the input image. -/
theorem C9_buffer_untouched_on_failure_witness :
    (process_image_run baseCV readerABC img2x2).buf = img2x2 := by
  have h1 : plate_of baseCV img2x2 = none := by
    rw [plate_of_eq_none_iff]
    intro c hc
    simp [top10_of, edged_of, gray_of, baseCV] at hc
  exact (C9_buffer_untouched_on_failure baseCV readerABC img2x2).1
    (by rw [run_plate_none baseCV readerABC img2x2 h1])

/-- C10: whenever the filled mask has at least one foreground pixel (and
mask and grayscale image share their rectangular shape, as
`np.zeros(gray.shape)` guarantees), the bounding box is well-formed —
min row at most max row, min column at most max column, both maxima
in bounds — and the crop is a non-empty in-bounds subregion no larger
than the input image. -/
theorem C10_crop_bounds (g mask : GrayImg) (w : Nat)
    (hne : foreground mask ≠ [])
    (hlen : mask.length = g.length)
    (hmw : ∀ row ∈ mask, row.length = w)
    (hgw : ∀ row ∈ g, row.length = w) :
    ∃ x1 y1 x2 y2, maskBBox mask = some (x1, y1, x2, y2) ∧
      x1 ≤ x2 ∧ y1 ≤ y2 ∧ x2 < g.length ∧ y2 < w ∧
      (cropGray g x1 x2 y1 y2).length = x2 + 1 - x1 ∧
      1 ≤ (cropGray g x1 x2 y1 y2).length ∧
      (cropGray g x1 x2 y1 y2).length ≤ g.length ∧
      ∀ row ∈ cropGray g x1 x2 y1 y2,
        row.length = y2 + 1 - y1 ∧ 1 ≤ row.length ∧ row.length ≤ w := by
  obtain ⟨x1, y1, x2, y2, hbb, hmin,
    ⟨p1, hp1, he1⟩, ⟨p2, hp2, he2⟩, ⟨p3, hp3, he3⟩, ⟨p4, hp4, he4⟩⟩ :=
    maskBBox_spec mask hne
  have hx2lt : x2 < g.length := by
    obtain ⟨hi, hj, hv⟩ := (mem_foreground mask p2).mp hp2
    rw [← hlen, ← he2]
    exact hi
  have hy2lt : y2 < w := by
    obtain ⟨hi, hj, hv⟩ := (mem_foreground mask p4).mp hp4
    have hrw : (mask.get ⟨p4.1, hi⟩).length = w := hmw _ (List.get_mem mask p4.1 hi)
    rw [← he4, ← hrw]
    exact hj
  have hx1le : x1 ≤ x2 := he2 ▸ (hmin p2 hp2).1
  have hy1le : y1 ≤ y2 := he4 ▸ (hmin p4 hp4).2.2.1
  have hclen : (cropGray g x1 x2 y1 y2).length = x2 + 1 - x1 := by
    simp only [cropGray, List.length_map, List.length_take, List.length_drop]
    omega
  refine ⟨x1, y1, x2, y2, hbb, hx1le, hy1le, hx2lt, hy2lt, hclen, ?_, ?_, ?_⟩
  · omega
  · omega
  · intro row hrow
    obtain ⟨r, hr, rfl⟩ := List.mem_map.mp hrow
    have hrg : r ∈ g := List.drop_subset x1 g (List.take_subset _ _ hr)
    have hrlen : r.length = w := hgw r hrg
    simp only [List.length_take, List.length_drop]
    omega

/-- C10 witness: a concrete all-foreground 2-by-2 mask over a 2-by-2
grayscale image yields the in-bounds full bounding box. -/
theorem C10_crop_bounds_witness :
    ∃ x1 y1 x2 y2, maskBBox [[255, 255], [255, 255]] = some (x1, y1, x2, y2) ∧
      x1 ≤ x2 ∧ y1 ≤ y2 ∧ x2 < ([[10, 20], [30, 40]] : GrayImg).length ∧ y2 < 2 ∧
      (cropGray [[10, 20], [30, 40]] x1 x2 y1 y2).length = x2 + 1 - x1 ∧
      1 ≤ (cropGray [[10, 20], [30, 40]] x1 x2 y1 y2).length ∧
      (cropGray [[10, 20], [30, 40]] x1 x2 y1 y2).length ≤
        ([[10, 20], [30, 40]] : GrayImg).length ∧
      ∀ row ∈ cropGray [[10, 20], [30, 40]] x1 x2 y1 y2,
        row.length = y2 + 1 - y1 ∧ 1 ≤ row.length ∧ row.length ≤ 2 :=
  C10_crop_bounds [[10, 20], [30, 40]] [[255, 255], [255, 255]] 2
    (by decide) rfl (by decide) (by decide)

/-- C3: the cropped image the pipeline produces is the grayscale image
restricted to rows min..max and columns min..max of the filled mask's
foreground pixels — the smallest axis-aligned rectangle containing the
foreground (every foreground pixel lies inside the box and all four
extremes are attained); in particular, when the mask covers the whole
(non-empty, rectangular) grayscale image the crop equals the full
grayscale image. -/
theorem C3_crop_is_bbox (cv : CV) (reader : GrayImg → List OCREntry) (img : ColorImg)
    (approx : List Pt) (x1 y1 x2 y2 : Nat)
    (hp : plate_of cv img = some approx)
    (hb : maskBBox (mask_of cv img approx) = some (x1, y1, x2, y2)) :
    (∀ r0 rs, reader (cropGray (gray_of cv img) x1 x2 y1 y2) = r0 :: rs →
      process_image cv reader img =
        some (some (annotate cv img r0.text approx), some r0.text,
              some (cropGray (gray_of cv img) x1 x2 y1 y2))) ∧
    (∀ p ∈ foreground (mask_of cv img approx),
      x1 ≤ p.1 ∧ p.1 ≤ x2 ∧ y1 ≤ p.2 ∧ p.2 ≤ y2) ∧
    ((∃ p ∈ foreground (mask_of cv img approx), p.1 = x1) ∧
     (∃ p ∈ foreground (mask_of cv img approx), p.1 = x2) ∧
     (∃ p ∈ foreground (mask_of cv img approx), p.2 = y1) ∧
     (∃ p ∈ foreground (mask_of cv img approx), p.2 = y2)) ∧
    (∀ h w, 0 < h → 0 < w →
      mask_of cv img approx = List.replicate h (List.replicate w 255) →
      (gray_of cv img).length = h →
      (∀ row ∈ gray_of cv img, row.length = w) →
      cropGray (gray_of cv img) x1 x2 y1 y2 = gray_of cv img) := by
  have hne : foreground (mask_of cv img approx) ≠ [] := by
    intro h0
    rw [maskBBox_eq_none _ h0] at hb
    exact Option.noConfusion hb
  obtain ⟨a, b, c, d, hbb, hmin, hex1, hex2, hex3, hex4⟩ := maskBBox_spec _ hne
  have hab : a = x1 ∧ b = y1 ∧ c = x2 ∧ d = y2 := by
    rw [hbb] at hb
    simpa [Prod.ext_iff] using Option.some.inj hb
  obtain ⟨ha, hb2, hc2, hd2⟩ := hab
  simp only [ha, hb2, hc2, hd2] at hmin hex1 hex2 hex3 hex4
  refine ⟨?_, hmin, ⟨hex1, hex2, hex3, hex4⟩, ?_⟩
  · intro r0 rs ho
    unfold process_image
    rw [run_success cv reader img approx x1 y1 x2 y2 r0 rs hp hb ho]
  · intro h w hh hw hmask hglen hgw
    have h00 : (0, 0) ∈ foreground (mask_of cv img approx) := by
      rw [hmask, mem_foreground]
      simp only [List.get_eq_getElem, List.getElem_replicate, List.length_replicate]
      exact ⟨hh, hw, trivial⟩
    have hhw : (h - 1, w - 1) ∈ foreground (mask_of cv img approx) := by
      rw [hmask, mem_foreground]
      simp only [List.get_eq_getElem, List.getElem_replicate, List.length_replicate]
      exact ⟨by omega, by omega, trivial⟩
    have hx1 : x1 = 0 := Nat.le_zero.mp (hmin (0, 0) h00).1
    have hy1 : y1 = 0 := Nat.le_zero.mp (hmin (0, 0) h00).2.2.1
    have hx2ge : h - 1 ≤ x2 := (hmin (h - 1, w - 1) hhw).2.1
    have hy2ge : w - 1 ≤ y2 := (hmin (h - 1, w - 1) hhw).2.2.2
    obtain ⟨p2, hp2, he2⟩ := hex2
    have hp2r : p2 ∈ foreground (List.replicate h (List.replicate w 255)) := hmask ▸ hp2
    have hx2lt : x2 < h := by
      obtain ⟨hi, hj, hv⟩ := (mem_foreground _ p2).mp hp2r
      rw [← he2]
      simpa using hi
    obtain ⟨p4, hp4, he4⟩ := hex4
    have hp4r : p4 ∈ foreground (List.replicate h (List.replicate w 255)) := hmask ▸ hp4
    have hy2lt : y2 < w := by
      obtain ⟨hi, hj, hv⟩ := (mem_foreground _ p4).mp hp4r
      rw [← he4]
      simpa [List.get_eq_getElem, List.getElem_replicate] using hj
    have hx2e : x2 = h - 1 := by omega
    have hy2e : y2 = w - 1 := by omega
    rw [hx1, hy1, hx2e, hy2e]
    unfold cropGray
    have hh1 : h - 1 + 1 - 0 = h := by omega
    rw [List.drop_zero, hh1, ← hglen, List.take_length]
    have hrows : ∀ row ∈ gray_of cv img, (row.drop 0).take (w - 1 + 1 - 0) = row := by
      intro row hr
      rw [List.drop_zero]
      have hwe : w - 1 + 1 - 0 = w := by omega
      rw [hwe]
      exact List.take_of_length_le (le_of_eq (hgw row hr))
    calc (gray_of cv img).map (fun row => (row.drop 0).take (w - 1 + 1 - 0))
        = (gray_of cv img).map id := List.map_congr_left hrows
      _ = gray_of cv img := List.map_id _

/-- C3 witness: with a polygon whose filled mask covers the whole
2-by-2 image, the crop is the full grayscale image. -/
theorem C3_crop_is_bbox_witness :
    cropGray (gray_of quadCV img2x2) 0 1 0 1 = gray_of quadCV img2x2 := by
  have hp : plate_of quadCV img2x2 = some quadC := by
    simp [plate_of, top10_of, edged_of, gray_of, quadCV, baseCV, approx4, quadC]
  have hmask : mask_of quadCV img2x2 quadC = [[255, 255], [255, 255]] := by
    simp [mask_of, gray_of, imgWidth, quadCV, baseCV, img2x2]
  have hb : maskBBox (mask_of quadCV img2x2 quadC) = some (0, 0, 1, 1) := by
    rw [hmask]; decide
  refine (C3_crop_is_bbox quadCV readerABC img2x2 quadC 0 0 1 1 hp hb).2.2.2 2 2
    (by decide) (by decide) ?_ (by decide) (by decide)
  rw [hmask]
  decide
